import Mathlib

/-
  Verification of the owl-eval pairwise-comparison aggregation and inference core.

  Shallow embedding of:
  - src/matrix-game-eval/analysis/analyzer.py   (aggregation, Fleiss' kappa)
  - src/eval/analysis/statistical_tests.py      (binomial / McNemar / bootstrap /
                                                 Bradley-Terry / multiple-comparison)
  - src/matrix-game-eval/evaluation/ab_testing.py (comparison creation)

  Python dictionaries are embedded as association lists in insertion order; floats
  carrying exact values are embedded as rationals; expressions that need square roots
  or logarithms live in ℝ / EReal.  Python code that can raise is embedded in
  `Except String`, the error string naming the Python exception.
-/

namespace OwlEval

/-- A stored comparison (`VideoComparison` in
src/matrix-game-eval/evaluation/ab_testing.py).  Only the fields the analysis claims
consume are embedded; `label_A` / `label_B` are `randomized_labels["A"]` and
`randomized_labels["B"]`. -/
structure Comparison where
  comparison_id : String
  label_A : String
  label_B : String
deriving DecidableEq

/-- An evaluation record (`EvaluationResult`).  `dimension_scores` maps a dimension
name to the evaluator's choice ("A", "B" or "Equal"), embedded as an association
list in Python dict insertion order. -/
structure EvalResult where
  comparison_id : String
  dimension_scores : List (String × String)
deriving DecidableEq

/-- `self.comparisons.get(result.comparison_id)` — dictionary lookup by id
(analyzer.py line 70). -/
def lookupComparison (comps : List Comparison) (cid : String) : Option Comparison :=
  comps.find? (fun c => c.comparison_id == cid)

/-! ## Aggregation Engine: `calculate_model_performance` (analyzer.py lines 60-104) -/

/-- Score appended to the list of the model behind label "A"
(analyzer.py lines 79-88): choice "A" → 1, choice "B" → 0, anything else → 0.5. -/
def scoreForA (choice : String) : ℚ :=
  if choice = "A" then 1 else if choice = "B" then 0 else 1/2

/-- Score appended to the list of the model behind label "B":
choice "A" → 0, choice "B" → 1, anything else → 0.5. -/
def scoreForB (choice : String) : ℚ :=
  if choice = "A" then 0 else if choice = "B" then 1 else 1/2

/-- Inner level of the `model_scores` defaultdict: dimension name → list of scalar
outcomes, in append order. -/
abbrev DimTable := List (String × List ℚ)

/-- Outer level: model name → dimension table, in insertion order. -/
abbrev ScoreTable := List (String × DimTable)

/-- `model_scores[model][dimension].append(x)` — append into the nested defaultdict,
creating the key at the end on first use, exactly as Python dict insertion order. -/
def upsertDim : DimTable → String → ℚ → DimTable
  | [], d, x => [(d, [x])]
  | (d', xs) :: t, d, x =>
      if d' = d then (d', xs ++ [x]) :: t else (d', xs) :: upsertDim t d x

/-- Outer-key version of `upsertDim`. -/
def upsertModel : ScoreTable → String → String → ℚ → ScoreTable
  | [], m, d, x => [(m, upsertDim [] d x)]
  | (m', dt) :: t, m, d, x =>
      if m' = m then (m', upsertDim dt d x) :: t else (m', dt) :: upsertModel t m d x

/-- One iteration of the outer loop of `calculate_model_performance`
(analyzer.py lines 69-88): an unresolvable `comparison_id` is skipped
(`if not comparison: continue`), otherwise every `(dimension, choice)` entry appends
`scoreForA choice` to the cell of the model behind label "A" and `scoreForB choice`
to the cell of the model behind label "B". -/
def processResult (comps : List Comparison) (t : ScoreTable) (r : EvalResult) :
    ScoreTable :=
  match lookupComparison comps r.comparison_id with
  | none => t
  | some comp =>
      r.dimension_scores.foldl
        (fun t p =>
          upsertModel (upsertModel t comp.label_A p.1 (scoreForA p.2))
            comp.label_B p.1 (scoreForB p.2)) t

/-- The fully built `model_scores` table (first loop of
`calculate_model_performance`). -/
def modelScores (comps : List Comparison) (results : List EvalResult) : ScoreTable :=
  results.foldl (processResult comps) []

/-- One row of the returned performance DataFrame (analyzer.py lines 96-102). -/
structure PerfRow where
  model : String
  dimension : String
  win_rate : ℚ
  num_evaluations : ℕ
  std_error : ℝ

/-- `np.mean(scores)`. -/
def listMean (xs : List ℚ) : ℚ := xs.sum / xs.length

/-- Population variance: the square of `np.std(scores)` (numpy default ddof = 0). -/
def popVariance (xs : List ℚ) : ℚ :=
  ((xs.map (fun x => (x - listMean xs) ^ 2)).sum) / xs.length

/-- `np.std(scores)` — population standard deviation. -/
noncomputable def npStd (xs : List ℚ) : ℝ := Real.sqrt (popVariance xs)

/-- Second loop of `calculate_model_performance` (analyzer.py lines 91-102): one row
per (model, dimension) cell with a nonempty outcome list, reporting
`np.mean(scores)`, `len(scores)` and `np.std(scores)/np.sqrt(len(scores))`. -/
noncomputable def perfRowsOfTable (t : ScoreTable) : List PerfRow :=
  t.flatMap (fun md =>
    md.2.filterMap (fun ds =>
      if ds.2.isEmpty then none
      else some ⟨md.1, ds.1, listMean ds.2, ds.2.length,
        npStd ds.2 / Real.sqrt ds.2.length⟩))

/-- `calculate_model_performance` (analyzer.py lines 60-104). -/
noncomputable def calculate_model_performance (comps : List Comparison)
    (results : List EvalResult) : List PerfRow :=
  perfRowsOfTable (modelScores comps results)

/-- Specification-side counterpart of `processResult`, written from the spec's words:
on choice "A" the model behind label "A" receives outcome 1 and *the other* model
receives 0, inversely for "B", and both receive 0.5 on "Equal".  The second update
addresses "the other model", which only exists when the two labels name distinct
models, hence the guard. -/
def specProcessResult (comps : List Comparison) (t : ScoreTable) (r : EvalResult) :
    ScoreTable :=
  match lookupComparison comps r.comparison_id with
  | none => t
  | some comp =>
      r.dimension_scores.foldl
        (fun t p =>
          let t1 := upsertModel t comp.label_A p.1 (scoreForA p.2)
          if comp.label_B = comp.label_A then t1
          else upsertModel t1 comp.label_B p.1 (scoreForB p.2)) t

/-- Specification-side outcome table. -/
def specModelScores (comps : List Comparison) (results : List EvalResult) :
    ScoreTable :=
  results.foldl (specProcessResult comps) []

/-- Concrete input for the C1 witness: one comparison with distinct models behind the
labels, two evaluations. -/
def c1Comps : List Comparison := [⟨"c1", "modelA", "modelB"⟩]

/-- Concrete evaluations for the C1 witness. -/
def c1Results : List EvalResult :=
  [⟨"c1", [("overall_quality", "A")]⟩, ⟨"c1", [("overall_quality", "Equal")]⟩]

/-! ## Reliability Analyzer: `calculate_inter_rater_reliability`
(analyzer.py lines 106-164) -/

/-- The canonical dimension list iterated by the kappa loop (analyzer.py line 121). -/
def kappaDimensions : List String :=
  ["overall_quality", "controllability", "visual_quality", "temporal_consistency"]

/-- `comparison_results[result.comparison_id].append(result)` — group results by
comparison id, defaultdict insertion order (analyzer.py lines 114-116). -/
def addToGroup : List (String × List EvalResult) → EvalResult →
    List (String × List EvalResult)
  | [], r => [(r.comparison_id, [r])]
  | g :: t, r =>
      if g.1 = r.comparison_id then (g.1, g.2 ++ [r]) :: t else g :: addToGroup t r

/-- The grouped results, in first-appearance order of the comparison id. -/
def groupByComparison (results : List EvalResult) : List (String × List EvalResult) :=
  results.foldl addToGroup []

/-- `result.dimension_scores.get(dimension, 'Equal')` (analyzer.py line 132):
a result lacking an entry for the dimension votes "Equal". -/
def choiceOf (r : EvalResult) (dim : String) : String :=
  ((r.dimension_scores.find? (fun p => p.1 == dim)).map Prod.snd).getD "Equal"

/-- The `votes` dict of analyzer.py lines 130-133, counts for ("A", "B", "Equal").
`votes[choice] += 1` raises `KeyError` for a choice outside the three keys, embedded
as `Except.error`. -/
def countVotes (dim : String) : List EvalResult → ℕ × ℕ × ℕ →
    Except String (ℕ × ℕ × ℕ)
  | [], v => .ok v
  | r :: rs, (a, b, e) =>
      if choiceOf r dim = "A" then countVotes dim rs (a + 1, b, e)
      else if choiceOf r dim = "B" then countVotes dim rs (a, b + 1, e)
      else if choiceOf r dim = "Equal" then countVotes dim rs (a, b, e + 1)
      else .error "KeyError"

/-- Recursion over the grouped results for `buildRatingMatrix`. -/
def ratingRows (dim : String) : List (String × List EvalResult) →
    Except String (List (ℕ × ℕ × ℕ))
  | [] => .ok []
  | g :: t =>
      if g.2.length < 2 then ratingRows dim t
      else
        match countVotes dim g.2 (0, 0, 0) with
        | .error e => .error e
        | .ok v =>
            match ratingRows dim t with
            | .error e => .error e
            | .ok rest => .ok (v :: rest)

/-- The `rating_matrix` built for one dimension (analyzer.py lines 123-135): one row
of vote counts per comparison with at least two raters, in group order.  A `KeyError`
from `countVotes` aborts the whole computation, as the Python exception would. -/
def buildRatingMatrix (results : List EvalResult) (dim : String) :
    Except String (List (ℕ × ℕ × ℕ)) :=
  ratingRows dim (groupByComparison results)

/-- The per-dimension loop of `calculate_inter_rater_reliability`. -/
def kappaGo (results : List EvalResult) : List String →
    Except String (List (String × ℚ))
  | [] => .ok []
  | dim :: dims =>
      match buildRatingMatrix results dim with
      | .error e => .error e
      | .ok matrix =>
          if matrix.isEmpty then kappaGo results dims
          else .error "TypeError: unsupported operand types for divide: NoneType and int"

/-- `calculate_inter_rater_reliability` (analyzer.py lines 106-164).  When the rating
matrix for a dimension is nonempty, the `P_i` loop (lines 149-153) executes
`P_i.append(...) / (n_raters * (n_raters - 1))`: the division is applied to the `None`
returned by `list.append`, so Python raises a `TypeError`, embedded as `Except.error`.
Dimensions whose matrix is empty contribute no kappa entry. -/
def calculate_inter_rater_reliability (results : List EvalResult) :
    Except String (List (String × ℚ)) :=
  kappaGo results kappaDimensions

/-- Concrete failing input for C2: one comparison evaluated by two raters, both
unanimously choosing "A". -/
def c2Results : List EvalResult :=
  [⟨"c1", [("overall_quality", "A")]⟩, ⟨"c1", [("overall_quality", "A")]⟩]

/-! ## Statistical Inference Suite (src/eval/analysis/statistical_tests.py) -/

/-- `scipy.stats.binom.pmf(x, n, 1/2)` at a possibly non-integral rational point:
zero off the integers 0..n. -/
def binomHalfPmf (n : ℕ) (x : ℚ) : ℚ :=
  if x.den = 1 ∧ 0 ≤ x.num ∧ x.num ≤ n then (n.choose x.num.toNat : ℚ) / 2 ^ n else 0

/-- `scipy.stats.binom.cdf(x, n, 1/2)`: the pmf summed over the integers ≤ x. -/
def binomHalfCdf (n : ℕ) (x : ℚ) : ℚ :=
  (((List.range (n + 1)).filter (fun i => decide ((i : ℚ) ≤ x))).map
    (fun i => binomHalfPmf n i)).sum

/-- `scipy.stats.binom.sf(x, n, 1/2) = 1 - cdf(x)`. -/
def binomHalfSf (n : ℕ) (x : ℚ) : ℚ := 1 - binomHalfCdf n x

/-- The relative tolerance `1 + 1e-7` scipy uses when comparing pmf values. -/
def rerrTol : ℚ := 1 + 1 / 10000000

/-- `scipy.stats.binom_test(k, n, p=0.5, alternative="two-sided")`: 1 exactly at the
central point k = n/2, otherwise the sum of the observed tail and of the opposite
tail of outcomes at most as probable as k (up to the relative tolerance). -/
def scipyBinomTestHalf (k : ℚ) (n : ℕ) : ℚ :=
  let d := binomHalfPmf n k
  if k = n / 2 then 1
  else if k < n / 2 then
    let y := ((List.range (n + 1)).filter
      (fun i => decide ((n / 2 : ℚ) ≤ (i : ℚ) ∧ binomHalfPmf n i ≤ d * rerrTol))).length
    min 1 (binomHalfCdf n k + binomHalfSf n ((n : ℚ) - y))
  else
    let y := ((List.range (n + 1)).filter
      (fun i => decide ((i : ℚ) ≤ (n / 2 : ℚ) ∧ binomHalfPmf n i ≤ d * rerrTol))).length
    min 1 (binomHalfCdf n ((y : ℚ) - 1) + binomHalfSf n (k - 1))

/-- `scipy.stats.binom.pmf(i, n, p)` at an integer point, general p. -/
def binomPmf (n : ℕ) (p : ℚ) (i : ℕ) : ℚ :=
  (n.choose i : ℚ) * p ^ i * (1 - p) ^ (n - i)

/-- `scipy.stats.binom.cdf(j, n, p)` at an integer point. -/
def binomCdfAt (n : ℕ) (p : ℚ) (j : ℕ) : ℚ :=
  ((List.range (j + 1)).map (binomPmf n p)).sum

/-- `scipy.stats.binom.ppf(q, n, p)` for 0 < q ≤ 1: the smallest integer j with
cdf(j) ≥ q. -/
def binomPpf (q : ℚ) (n : ℕ) (p : ℚ) : ℕ :=
  ((List.range (n + 1)).find? (fun j => decide (q ≤ binomCdfAt n p j))).getD n

/-- `scipy.stats.binom.interval(c, n, p)`: the ppf at the two tail quantiles
(1-c)/2 and 1-(1-c)/2. -/
def binomInterval (c : ℚ) (n : ℕ) (p : ℚ) : ℚ × ℚ :=
  ((binomPpf ((1 - c) / 2) n p : ℚ), (binomPpf (1 - (1 - c) / 2) n p : ℚ))

/-- The result dictionary of `binomial_test`. -/
structure BinomTestResult where
  p_value : ℚ
  win_rate_a : ℚ
  ci_lower : ℚ
  ci_upper : ℚ
  significant : Bool
deriving DecidableEq

/-- `StatisticalTests.binomial_test` (statistical_tests.py lines 16-65).  With
`exclude_ties` the effective sample is wins only; otherwise ties are split evenly
(`k = wins_a + ties/2`).  n = 0 returns the defined default; otherwise the exact
two-sided binomial p-value against 1/2, the win rate k/n, and the 95% binomial
interval at the observed rate expressed as a fraction of n. -/
def binomial_test (wins_a wins_b ties : ℕ) (exclude_ties : Bool) : BinomTestResult :=
  let n : ℕ := if exclude_ties then wins_a + wins_b else wins_a + wins_b + ties
  let k : ℚ := if exclude_ties then (wins_a : ℚ) else (wins_a : ℚ) + (ties : ℚ) / 2
  if n = 0 then ⟨1, 1/2, 0, 1, false⟩
  else
    let p_value := scipyBinomTestHalf k n
    let win_rate := k / n
    let ci := binomInterval (95/100) n win_rate
    ⟨p_value, win_rate, ci.1 / n, ci.2 / n, decide (p_value < 1/20)⟩

/-- Survival function of the chi-square distribution with 1 degree of freedom
(`scipy.stats.chi2.sf(x, df=1)`): the upper-tail integral of its density. -/
noncomputable def chi2sf (x : ℚ) : ℝ :=
  ∫ t in Set.Ioi (x : ℝ), Real.exp (-t / 2) / Real.sqrt (2 * Real.pi * t)

/-- One result dictionary of `mcnemar_test`.  `significant` is the proposition
`p_value < 0.05`.  The `odds_ratio` key is omitted: no claim references it, and the
b+c = 0 branch of the code returns no such key at all. -/
structure McnemarResult where
  statistic : ℚ
  p_value : ℝ
  significant : Prop

/-- `StatisticalTests.mcnemar_test` (statistical_tests.py lines 67-109) on the 2x2
table [[both_correct, b], [c, both_wrong]]; b and c are the discordant counts
`table[0,1]` and `table[1,0]`.  b+c = 0 short-circuits; b+c < 25 uses the exact
binomial test with reporting statistic (b-c)²/(b+c); b+c ≥ 25 uses the
continuity-corrected chi-square statistic (|b-c|-1)²/(b+c) with the 1-df chi-square
survival p-value. -/
noncomputable def mcnemar_test (b c : ℕ) : McnemarResult :=
  if b + c = 0 then ⟨0, 1, (1 : ℝ) < 1/20⟩
  else if b + c < 25 then
    let p : ℚ := scipyBinomTestHalf (b : ℚ) (b + c)
    ⟨((b : ℚ) - (c : ℚ)) ^ 2 / ((b : ℚ) + (c : ℚ)), (p : ℝ), ((p : ℝ) < 1/20)⟩
  else
    let stat : ℚ := (|(b : ℚ) - (c : ℚ)| - 1) ^ 2 / ((b : ℚ) + (c : ℚ))
    ⟨stat, chi2sf stat, (chi2sf stat < 1/20)⟩

/-- One entry of the `multiple_comparison_correction` output (the `method` key,
constant, is omitted). -/
structure CorrectionEntry where
  original_p : ℚ
  corrected_p : ℚ
  significant : Bool
deriving DecidableEq

/-- `statsmodels.stats.multitest.multipletests(pvals, alpha=0.05,
method="bonferroni")`: each test is rejected iff p ≤ alpha/m, and the corrected
p-value is p·m clipped at 1. -/
def multipletests_bonferroni (pvals : List ℚ) : List (Bool × ℚ) :=
  let m := pvals.length
  pvals.map (fun p => (decide (p ≤ (1/20) / (m : ℚ)), min (p * (m : ℚ)) 1))

/-- `StatisticalTests.multiple_comparison_correction` with method "bonferroni"
(statistical_tests.py lines 278-310): the test names zipped with the statsmodels
output.  ("holm" and "fdr_bh" are likewise delegated to statsmodels and are outside
the claims verified here.) -/
def multiple_comparison_correction (pvalues : List (String × ℚ)) :
    List (String × CorrectionEntry) :=
  (pvalues.zip (multipletests_bonferroni (pvalues.map Prod.snd))).map
    (fun x => (x.1.1, ⟨x.1.2, x.2.2, x.2.1⟩))

/-! ## C4: orphaned evaluation results in `calculate_model_performance` -/

/-- C4 inputs: one resolvable evaluation. -/
def c4Results : List EvalResult := [⟨"c1", [("overall_quality", "A")]⟩]

/-- C4 inputs: an orphaned evaluation — comparison id "ghost" matches no stored
comparison. -/
def c4Orphan : EvalResult := ⟨"ghost", [("controllability", "B")]⟩

/-! ## Bootstrap CI: `bootstrap_confidence_interval`
(statistical_tests.py lines 111-166) -/

/-- One batch of `np.random.choice(xs, size=cnt, replace=True)` draws from the global
numpy generator, modelled as an ambient index stream: the draw at time `base + j`
selects the element at index `stream (base + j) % xs.length`. -/
def sampleAt (xs : List ℚ) (stream : ℕ → ℕ) (base cnt : ℕ) : List ℚ :=
  (List.range cnt).map (fun j => xs.getD (stream (base + j) % xs.length) 0)

/-- `np.percentile(arr, q)` with the default linear interpolation between order
statistics of the sorted data. -/
def npPercentile (xs : List ℚ) (q : ℚ) : ℚ :=
  let s := xs.insertionSort (· ≤ ·)
  let pos := q * ((s.length : ℚ) - 1) / 100
  let lo := (Int.floor pos).toNat
  let hi := (Int.ceil pos).toNat
  s.getD lo 0 + (pos - (lo : ℚ)) * (s.getD hi 0 - s.getD lo 0)

/-- The list `bootstrap_diffs`: iteration i consumes the draws at positions
i·(n_a+n_b) … i·(n_a+n_b)+n_a-1 for `sample_a` and the following n_b positions for
`sample_b`. -/
def bootstrapDiffs (scores_a scores_b : List ℚ) (n_bootstrap : ℕ)
    (stream : ℕ → ℕ) : List ℚ :=
  (List.range n_bootstrap).map (fun i =>
    listMean (sampleAt scores_a stream (i * (scores_a.length + scores_b.length))
        scores_a.length) -
      listMean (sampleAt scores_b stream
        (i * (scores_a.length + scores_b.length) + scores_a.length)
        scores_b.length))

/-- The result dictionary of `bootstrap_confidence_interval`. -/
structure BootstrapResult where
  mean_diff : ℚ
  ci_lower : ℚ
  ci_upper : ℚ
  p_value : ℚ
  significant : Bool
deriving DecidableEq

/-- `StatisticalTests.bootstrap_confidence_interval` (statistical_tests.py lines
111-166).  The Python signature has NO seed parameter: the two `np.random.choice`
calls read numpy's shared global generator, modelled here by the ambient `stream`
argument. -/
def bootstrap_confidence_interval (scores_a scores_b : List ℚ) (n_bootstrap : ℕ)
    (confidence_level : ℚ) (stream : ℕ → ℕ) : BootstrapResult :=
  let original_diff := listMean scores_a - listMean scores_b
  let diffs := bootstrapDiffs scores_a scores_b n_bootstrap stream
  let alpha := 1 - confidence_level
  let ci_lower := npPercentile diffs (alpha / 2 * 100)
  let ci_upper := npPercentile diffs ((1 - alpha / 2) * 100)
  let p_value :=
    if 0 < original_diff then
      2 * listMean (diffs.map (fun d => if d ≤ 0 then 1 else 0))
    else
      2 * listMean (diffs.map (fun d => if 0 ≤ d then 1 else 0))
  ⟨original_diff, ci_lower, ci_upper, min p_value 1,
    decide (0 < ci_lower) || decide (ci_upper < 0)⟩

/-! ## Comparison Randomizer: `create_comparison`
(src/matrix-game-eval/evaluation/ab_testing.py lines 86-165) -/

/-- The label-relevant fields of the `VideoComparison` built by `create_comparison`. -/
structure MGComparison where
  model_a_name : String
  model_b_name : String
  label_A : String
  label_B : String
deriving DecidableEq

/-- The label-assignment core of `ABTestingFramework.create_comparison` (ab_testing.py
lines 86-165).  `coin` is the outcome of `random.random() < 0.5`.  The code performs
no validation of the model names — identical `model_a`/`model_b` are accepted — and
unconditionally saves and returns the comparison, so the embedding always returns
`Except.ok`: no `InvalidComparisonError` (or any other rejection path) exists in the
code. -/
def create_comparison (model_a model_b : String) (randomize_order coin : Bool) :
    Except String MGComparison :=
  if randomize_order && coin then
    .ok ⟨model_a, model_b, model_b, model_a⟩
  else
    .ok ⟨model_a, model_b, model_a, model_b⟩

/-! ## Bradley-Terry ranking: `bradley_terry_model`
(statistical_tests.py lines 168-276) -/

/-- One row of the `comparison_results` DataFrame; `weight` is the optional
`row.get('weight', 1.0)` column. -/
structure BTRow where
  model_a : String
  model_b : String
  winner : String
  weight : Option ℚ
deriving DecidableEq

/-- Python `sorted` order on strings: lexicographic by code point. -/
def pyStrLe (a b : String) : Bool := a.data ≤ b.data

/-- `sorted(set(model_a column + model_b column))` (lines 186-189). -/
def sortedModels (rows : List BTRow) : List String :=
  ((rows.map (fun r => r.model_a) ++ rows.map (fun r => r.model_b)).dedup).insertionSort
    (fun a b => pyStrLe a b = true)

/-- One value of the returned strengths dictionary.  Strength and standard error live
in `EReal`: the fallback computes `np.log` of ratios that can be 0 or ∞, and reports
`se = np.inf`.  `win_probability` is `none` for the empty-comparisons early return,
whose dictionary carries no such key. -/
structure BTEntry where
  strength : EReal
  se : EReal
  win_probability : Option EReal

/-- `np.log` on nonnegative extended values: log 0 = -∞ (numpy warns, no exception),
log ∞ = ∞. -/
noncomputable def npLog (x : EReal) : EReal :=
  if x = 0 then ⊥ else if x = ⊤ then ⊤ else ((Real.log x.toReal : ℝ) : EReal)

/-- Fallback empirical wins per model (lines 257-261). -/
def btWins (rows : List BTRow) (m : String) : ℕ :=
  (rows.filter (fun r => (r.model_a == m && r.winner == "a") ||
    (r.model_b == m && r.winner == "b"))).length

/-- Fallback appearances per model (lines 262-265). -/
def btTotal (rows : List BTRow) (m : String) : ℕ :=
  (rows.filter (fun r => r.model_a == m || r.model_b == m)).length

/-- `win_rates[model] = wins / max(total, 1)` (line 266). -/
def btWinRate (rows : List BTRow) (m : String) : ℚ :=
  (btWins rows m : ℚ) / ((max (btTotal rows m) 1 : ℕ) : ℚ)

/-- `avg_rate = np.mean(list(win_rates.values()))` (line 268). -/
def btAvgRate (rows : List BTRow) : ℚ :=
  listMean ((sortedModels rows).map (btWinRate rows))

/-- `avg_rate / (1 - avg_rate)` on a numpy float64: division by zero yields inf with
a warning, no exception. -/
noncomputable def npRatio (avg : ℚ) : EReal :=
  if avg = 1 then ⊤ else (((avg / (1 - avg) : ℚ) : ℝ) : EReal)

/-- The fallback dict comprehension (lines 269-276), iterating the models in
dictionary (= sorted) order.  `rate / (1 - rate)` is evaluated on plain Python
floats: at rate = 1.0 it raises `ZeroDivisionError` — inside the `except` handler, so
it propagates to the caller.  (For rate < 1 the value feeds `np.log`, -∞ at rate 0;
the float NaN arising when both log terms are -∞ is conflated with ⊥ here — no claim
touches that corner.) -/
noncomputable def btFallbackGo (rows : List BTRow) : List String →
    Except String (List (String × BTEntry))
  | [] => .ok []
  | m :: ms =>
      if btWinRate rows m = 1 then .error "ZeroDivisionError"
      else
        match btFallbackGo rows ms with
        | .error e => .error e
        | .ok rest =>
            .ok ((m, ⟨npLog ((((btWinRate rows m / (1 - btWinRate rows m) : ℚ) : ℝ) : EReal)) -
                npLog (npRatio (btAvgRate rows)), ⊤,
              some (((btWinRate rows m : ℚ) : ℝ) : EReal)⟩) :: rest)

/-- The `except`-branch fallback of `bradley_terry_model` (lines 252-276). -/
noncomputable def btFallback (rows : List BTRow) :
    Except String (List (String × BTEntry)) :=
  btFallbackGo rows (sortedModels rows)

/-- The converged branch (lines 230-250): `strengths[0] = 0` (reference model),
`strengths[1:] = result.params[1:]` (dropping the `sm.add_constant` intercept at
index 0), recentred to zero mean; `se` likewise from `result.bse`;
`win_probability = sigmoid(strength)`. -/
noncomputable def btConverged (rows : List BTRow) (params bse : List ℝ) :
    List (String × BTEntry) :=
  let models := sortedModels rows
  let strengths : List ℝ := 0 :: params.drop 1
  let avg : ℝ := strengths.sum / strengths.length
  let normalized := strengths.map (fun s => s - avg)
  let se : List ℝ := 0 :: bse.drop 1
  (List.range models.length).map (fun i =>
    (models.getD i "",
      ⟨((normalized.getD i 0 : ℝ) : EReal), ((se.getD i 0 : ℝ) : EReal),
        some (((1 / (1 + Real.exp (-(normalized.getD i 0))) : ℝ) : EReal))⟩))

/-- The outcome of the external `sm.GLM(...).fit()` call inside the `try` block:
the fitted `result.params` and `result.bse` on success, or the raised exception. -/
def FitOutcome : Type := Except String (List ℝ × List ℝ)

/-- `StatisticalTests.bradley_terry_model` (statistical_tests.py lines 168-276).
Ties are skipped when building the design matrix; with no usable comparison the
early return gives every model strength 0 and se = ∞; otherwise the statsmodels fit
outcome decides between the converged branch and the fallback. -/
noncomputable def bradley_terry_model (rows : List BTRow) (fit : FitOutcome) :
    Except String (List (String × BTEntry)) :=
  if (rows.filter (fun r => !(r.winner == "tie"))).isEmpty then
    .ok ((sortedModels rows).map (fun m => (m, ⟨0, ⊤, none⟩)))
  else
    match fit with
    | .ok pb => .ok (btConverged rows pb.1 pb.2)
    | .error _ => btFallback rows

/-- C7 failing input: a single comparison won by model "A". -/
def c7Rows : List BTRow := [⟨"A", "B", "a", none⟩]

/-! ## Theorems -/

theorem processResult_eq_spec (comps : List Comparison)
    (hdist : ∀ c ∈ comps, c.label_A ≠ c.label_B) (t : ScoreTable) (r : EvalResult) :
    processResult comps t r = specProcessResult comps t r := by
  unfold processResult specProcessResult
  cases hc : lookupComparison comps r.comparison_id with
  | none => rfl
  | some comp =>
      have hmem : comp ∈ comps := List.mem_of_find?_eq_some hc
      have hne : comp.label_B ≠ comp.label_A := (hdist comp hmem).symm
      refine List.foldl_ext _ _ t (fun t p _ => ?_)
      simp only [if_neg hne]

/-- C1: with resolvable comparisons and distinct true identities behind the two labels,
the aggregation engine realises exactly the spec's outcome mapping (choice "A" gives the
model behind label "A" outcome 1 and the other model 0, inversely for "B", and 0.5 to
both on anything else), and every reported (model, dimension) row carries the mean of
that cell's nonempty outcome list as `win_rate`, its length as `n`, and its population
standard deviation divided by √n as `std_error`. -/
theorem C1_model_performance (comps : List Comparison) (results : List EvalResult)
    (hdist : ∀ c ∈ comps, c.label_A ≠ c.label_B) :
    modelScores comps results = specModelScores comps results ∧
    ∀ row ∈ calculate_model_performance comps results,
      ∃ dt scores, (row.model, dt) ∈ modelScores comps results ∧
        (row.dimension, scores) ∈ dt ∧ scores ≠ [] ∧
        row.win_rate = listMean scores ∧
        row.num_evaluations = scores.length ∧
        row.std_error = Real.sqrt (popVariance scores) / Real.sqrt scores.length := by
  constructor
  · exact List.foldl_ext _ _ []
      (fun t r _ => processResult_eq_spec comps hdist t r)
  · intro row hrow
    unfold calculate_model_performance perfRowsOfTable at hrow
    rw [List.mem_flatMap] at hrow
    obtain ⟨md, hmd, hrow⟩ := hrow
    rw [List.mem_filterMap] at hrow
    obtain ⟨ds, hds, hmk⟩ := hrow
    by_cases hemp : ds.2.isEmpty
    · simp [hemp] at hmk
    · rw [if_neg hemp] at hmk
      injection hmk with hmk
      refine ⟨md.2, ds.2, ?_, ?_, ?_, ?_, ?_, ?_⟩
      · rw [← hmk]; exact (Prod.mk.eta (p := md)) ▸ hmd
      · rw [← hmk]; exact (Prod.mk.eta (p := ds)) ▸ hds
      · exact fun h => hemp (by simp [h])
      · rw [← hmk]
      · rw [← hmk]
      · rw [← hmk]; rfl

/-- Witness for C1 at a concrete input: the distinct-labels hypothesis holds and the
theorem applies. -/

theorem C1_model_performance_witness :
    (∀ c ∈ c1Comps, c.label_A ≠ c.label_B) ∧
    (modelScores c1Comps c1Results = specModelScores c1Comps c1Results ∧
      ∀ row ∈ calculate_model_performance c1Comps c1Results,
        ∃ dt scores, (row.model, dt) ∈ modelScores c1Comps c1Results ∧
          (row.dimension, scores) ∈ dt ∧ scores ≠ [] ∧
          row.win_rate = listMean scores ∧
          row.num_evaluations = scores.length ∧
          row.std_error = Real.sqrt (popVariance scores) / Real.sqrt scores.length) :=
  ⟨by decide, C1_model_performance c1Comps c1Results (by decide)⟩

/-- C2 (code bug): on a unanimous two-rater input — where the spec requires κ = 1.0 —
`calculate_inter_rater_reliability` raises `TypeError`, because the `P_i` loop divides
the `None` returned by `list.append` instead of the appended value (misplaced closing
parenthesis, analyzer.py lines 149-153). -/
theorem C2_kappa_type_error :
    calculate_inter_rater_reliability c2Results =
      .error "TypeError: unsupported operand types for divide: NoneType and int" := by
  rfl

/-- Every member of a group built by `addToGroup` was in a group of the accumulator or
is the appended result. -/
theorem addToGroup_mem : ∀ (acc : List (String × List EvalResult)) (x : EvalResult)
    (g : String × List EvalResult), g ∈ addToGroup acc x → ∀ r ∈ g.2,
    (∃ g₀ ∈ acc, r ∈ g₀.2) ∨ r = x
  | [], x, g, hg, r, hr => by
      simp only [addToGroup, List.mem_singleton] at hg
      subst hg
      simp only [List.mem_singleton] at hr
      exact Or.inr hr
  | g' :: t, x, g, hg, r, hr => by
      rw [addToGroup] at hg
      split at hg
      · rcases List.mem_cons.mp hg with hgeq | hgt
        · subst hgeq
          rcases List.mem_append.mp hr with hr' | hr'
          · exact Or.inl ⟨g', List.mem_cons_self _ _, hr'⟩
          · exact Or.inr (List.mem_singleton.mp hr')
        · exact Or.inl ⟨g, List.mem_cons_of_mem _ hgt, hr⟩
      · rcases List.mem_cons.mp hg with hgeq | hgt
        · subst hgeq
          exact Or.inl ⟨g, List.mem_cons_self _ _, hr⟩
        · rcases addToGroup_mem t x g hgt r hr with ⟨g₀, hg₀, hrg₀⟩ | heq
          · exact Or.inl ⟨g₀, List.mem_cons_of_mem _ hg₀, hrg₀⟩
          · exact Or.inr heq

/-- Provenance through the grouping fold. -/
theorem foldl_addToGroup_mem : ∀ (l : List EvalResult)
    (acc : List (String × List EvalResult)) (g : String × List EvalResult),
    g ∈ l.foldl addToGroup acc → ∀ r ∈ g.2, (∃ g₀ ∈ acc, r ∈ g₀.2) ∨ r ∈ l
  | [], acc, g, hg, r, hr => Or.inl ⟨g, hg, hr⟩
  | x :: xs, acc, g, hg, r, hr => by
      rcases foldl_addToGroup_mem xs (addToGroup acc x) g hg r hr with hmem | hxs
      · obtain ⟨g₀, hg₀, hrg₀⟩ := hmem
        rcases addToGroup_mem acc x g₀ hg₀ r hrg₀ with hacc | heq
        · exact Or.inl hacc
        · exact Or.inr (heq ▸ List.mem_cons_self _ _)
      · exact Or.inr (List.mem_cons_of_mem _ hxs)

/-- Every evaluation inside a group of `groupByComparison results` comes from
`results`. -/
theorem groupByComparison_mem {results : List EvalResult}
    {g : String × List EvalResult} (hg : g ∈ groupByComparison results)
    {r : EvalResult} (hr : r ∈ g.2) : r ∈ results := by
  rcases foldl_addToGroup_mem results [] g hg r hr with ⟨g₀, hg₀, _⟩ | hres
  · cases hg₀
  · exact hres

/-- When every vote resolves to one of the three keys, `countVotes` succeeds and adds
exactly one vote per evaluation to the running counts. -/
theorem countVotes_total {dim : String} : ∀ (rs : List EvalResult),
    (∀ r ∈ rs, choiceOf r dim ∈ (["A", "B", "Equal"] : List String)) →
    ∀ a b e : ℕ, ∃ v, countVotes dim rs (a, b, e) = .ok v ∧
      v.1 + v.2.1 + v.2.2 = a + b + e + rs.length
  | [], _, a, b, e => ⟨(a, b, e), rfl, by simp⟩
  | r :: t, hvalid, a, b, e => by
      have hr := hvalid r (List.mem_cons_self _ _)
      have ht : ∀ r' ∈ t, choiceOf r' dim ∈ (["A", "B", "Equal"] : List String) :=
        fun r' h' => hvalid r' (List.mem_cons_of_mem _ h')
      simp only [List.mem_cons, List.not_mem_nil, or_false] at hr
      rcases hr with hc | hc | hc
      · obtain ⟨v, hv, hs⟩ := countVotes_total t ht (a + 1) b e
        refine ⟨v, ?_, by simp only [List.length_cons]; omega⟩
        rw [countVotes, if_pos hc]
        exact hv
      · obtain ⟨v, hv, hs⟩ := countVotes_total t ht a (b + 1) e
        refine ⟨v, ?_, by simp only [List.length_cons]; omega⟩
        rw [countVotes, if_neg (by simp [hc]), if_pos hc]
        exact hv
      · obtain ⟨v, hv, hs⟩ := countVotes_total t ht a b (e + 1)
        refine ⟨v, ?_, by simp only [List.length_cons]; omega⟩
        rw [countVotes, if_neg (by simp [hc]), if_neg (by simp [hc]), if_pos hc]
        exact hv

/-- When all votes of all eligible groups resolve, `ratingRows` succeeds and its rows
correspond one-to-one, in order, to the eligible (≥ 2 raters) groups, each row summing
to its group's number of evaluators. -/
theorem ratingRows_spec {dim : String} : ∀ (groups : List (String × List EvalResult)),
    (∀ g ∈ groups, ∀ r ∈ g.2, choiceOf r dim ∈ (["A", "B", "Equal"] : List String)) →
    ∃ rows, ratingRows dim groups = .ok rows ∧
      List.Forall₂
        (fun (g : String × List EvalResult) (v : ℕ × ℕ × ℕ) =>
          countVotes dim g.2 (0, 0, 0) = .ok v ∧ v.1 + v.2.1 + v.2.2 = g.2.length)
        (groups.filter (fun g => 2 ≤ g.2.length)) rows
  | [], _ => ⟨[], rfl, by simp⟩
  | g :: t, hvalid => by
      have hg := hvalid g (List.mem_cons_self _ _)
      have ht : ∀ g' ∈ t, ∀ r ∈ g'.2,
          choiceOf r dim ∈ (["A", "B", "Equal"] : List String) :=
        fun g' h' => hvalid g' (List.mem_cons_of_mem _ h')
      obtain ⟨rest, hrest, hcorr⟩ := ratingRows_spec t ht
      by_cases hlen : g.2.length < 2
      · refine ⟨rest, ?_, ?_⟩
        · rw [ratingRows, if_pos hlen]
          exact hrest
        · rw [List.filter_cons_of_neg (by simpa using Nat.not_le_of_lt hlen)]
          exact hcorr
      · obtain ⟨v, hv, hsum⟩ := countVotes_total g.2 hg 0 0 0
        refine ⟨v :: rest, ?_, ?_⟩
        · rw [ratingRows, if_neg hlen, hv, hrest]
        · rw [List.filter_cons_of_pos (by simpa using Nat.le_of_not_lt hlen)]
          exact List.Forall₂.cons ⟨hv, by simpa using hsum⟩ hcorr

/-- C10: in the rating-matrix construction of the Fleiss' kappa computation, an
evaluation lacking an entry for the dimension is counted as a vote for "Equal" (not
excluded), and — when all present votes are among "A"/"B"/"Equal" as the data model
requires — every comparison with at least 2 evaluators contributes one row whose votes
across the three categories sum to exactly its number of evaluators, for every
dimension. -/
theorem C10_votes_complete (results : List EvalResult) (dim : String)
    (hvalid : ∀ r ∈ results, ∀ p ∈ r.dimension_scores,
      p.2 ∈ (["A", "B", "Equal"] : List String)) :
    (∀ r : EvalResult, r.dimension_scores.find? (fun p => p.1 == dim) = none →
      choiceOf r dim = "Equal") ∧
    ∃ rows, buildRatingMatrix results dim = .ok rows ∧
      List.Forall₂
        (fun (g : String × List EvalResult) (v : ℕ × ℕ × ℕ) =>
          countVotes dim g.2 (0, 0, 0) = .ok v ∧ v.1 + v.2.1 + v.2.2 = g.2.length)
        ((groupByComparison results).filter (fun g => 2 ≤ g.2.length)) rows := by
  constructor
  · intro r hnone
    simp [choiceOf, hnone]
  · have hval : ∀ g ∈ groupByComparison results, ∀ r ∈ g.2,
        choiceOf r dim ∈ (["A", "B", "Equal"] : List String) := by
      intro g hgmem r hrmem
      have hrres := groupByComparison_mem hgmem hrmem
      unfold choiceOf
      cases hf : r.dimension_scores.find? (fun p => p.1 == dim) with
      | none => simp
      | some p =>
          have hpmem := List.mem_of_find?_eq_some hf
          have := hvalid r hrres p hpmem
          simpa using this
    unfold buildRatingMatrix
    exact ratingRows_spec (groupByComparison results) hval

/-- Witness for C10: the unanimous two-rater input satisfies the data-model validity
hypothesis, and the theorem applies at dimension "overall_quality". -/
theorem C10_votes_complete_witness :
    (∀ r ∈ c2Results, ∀ p ∈ r.dimension_scores,
      p.2 ∈ (["A", "B", "Equal"] : List String)) ∧
    ((∀ r : EvalResult,
        r.dimension_scores.find? (fun p => p.1 == "overall_quality") = none →
        choiceOf r "overall_quality" = "Equal") ∧
      ∃ rows, buildRatingMatrix c2Results "overall_quality" = .ok rows ∧
        List.Forall₂
          (fun (g : String × List EvalResult) (v : ℕ × ℕ × ℕ) =>
            countVotes "overall_quality" g.2 (0, 0, 0) = .ok v ∧
              v.1 + v.2.1 + v.2.2 = g.2.length)
          ((groupByComparison c2Results).filter (fun g => 2 ≤ g.2.length)) rows) :=
  ⟨by decide, C10_votes_complete c2Results "overall_quality" (by decide)⟩

/-- C8: whenever the effective sample size is zero — no wins on either side and, when
ties are included, no ties either — `binomial_test` returns the defined defaults
p = 1.0, win_rate_a = 0.5, CI = [0, 1], not significant, without error. -/
theorem C8_binomial_test_degenerate (wins_a wins_b ties : ℕ) (exclude_ties : Bool)
    (h : wins_a = 0 ∧ wins_b = 0 ∧ (exclude_ties = false → ties = 0)) :
    binomial_test wins_a wins_b ties exclude_ties = ⟨1, 1/2, 0, 1, false⟩ := by
  obtain ⟨ha, hb, ht⟩ := h
  subst ha; subst hb
  unfold binomial_test
  cases exclude_ties with
  | true => simp
  | false => rw [ht rfl]; simp

/-- Witness for C8 at wins_a = wins_b = 0, ties = 3, exclude_ties = true. -/
theorem C8_binomial_test_degenerate_witness :
    (0 = 0 ∧ 0 = 0 ∧ (true = false → 3 = 0)) ∧
      binomial_test 0 0 3 true = ⟨1, 1/2, 0, 1, false⟩ :=
  ⟨⟨rfl, rfl, fun h => absurd h (by decide)⟩,
    C8_binomial_test_degenerate 0 0 3 true ⟨rfl, rfl, fun h => absurd h (by decide)⟩⟩

/-- C3 counterexample: at b = c = 13 (so b + c = 26 ≥ 25) the continuity-corrected
branch yields statistic (|b-c|-1)²/(b+c) = 1/26 ≠ 0, falsifying "statistic = 0 ...
regardless of magnitude, including b + c ≥ 25". -/
theorem C3_counterexample :
    (mcnemar_test 13 13).statistic = 1/26 ∧ ((1 : ℚ)/26 ≠ 0) := by
  constructor
  · norm_num [mcnemar_test]
  · norm_num

/-- C3 (amended): for b = c, the claimed degenerate output holds exactly on the
branches below the continuity-correction threshold: when b + c < 25 (including 0) the
statistic is 0, p = 1.0 and the result is not significant; when b + c ≥ 25 the
continuity-corrected statistic equals 1/(b+c), which is nonzero. -/
theorem C3_mcnemar_equal_counts (b c : ℕ) (h : b = c) :
    (b + c < 25 →
      (mcnemar_test b c).statistic = 0 ∧ (mcnemar_test b c).p_value = 1 ∧
        ¬ (mcnemar_test b c).significant) ∧
    (25 ≤ b + c →
      (mcnemar_test b c).statistic = 1 / ((b : ℚ) + (c : ℚ)) ∧
        (mcnemar_test b c).statistic ≠ 0) := by
  subst h
  constructor
  · intro hlt
    by_cases h0 : b + b = 0
    · unfold mcnemar_test
      rw [if_pos h0]
      exact ⟨rfl, rfl, by norm_num⟩
    · have hp : scipyBinomTestHalf (b : ℚ) (b + b) = 1 := by
        unfold scipyBinomTestHalf
        rw [if_pos (by push_cast; ring)]
      unfold mcnemar_test
      rw [if_neg h0, if_pos hlt]
      refine ⟨by simp, ?_, ?_⟩
      · show ((scipyBinomTestHalf (b : ℚ) (b + b) : ℚ) : ℝ) = 1
        rw [hp]; norm_num
      · show ¬ (((scipyBinomTestHalf (b : ℚ) (b + b) : ℚ) : ℝ) < 1/20)
        rw [hp]; norm_num
  · intro hge
    have h0 : ¬ (b + b = 0) := by omega
    have hlt : ¬ (b + b < 25) := by omega
    unfold mcnemar_test
    rw [if_neg h0, if_neg hlt]
    have hstat : (|(b : ℚ) - (b : ℚ)| - 1) ^ 2 / ((b : ℚ) + (b : ℚ)) =
        1 / ((b : ℚ) + (b : ℚ)) := by
      simp
    have hbpos : (0 : ℚ) < (b : ℚ) + (b : ℚ) := by
      have hb : 1 ≤ b := by omega
      have hbq : (1 : ℚ) ≤ (b : ℚ) := by exact_mod_cast hb
      linarith
    exact ⟨hstat, hstat ▸ one_div_ne_zero (ne_of_gt hbpos)⟩

/-- Witness for C3 (amended) at b = c = 13. -/
theorem C3_mcnemar_equal_counts_witness :
    (13 = 13) ∧
    ((13 + 13 < 25 →
      (mcnemar_test 13 13).statistic = 0 ∧ (mcnemar_test 13 13).p_value = 1 ∧
        ¬ (mcnemar_test 13 13).significant) ∧
    (25 ≤ 13 + 13 →
      (mcnemar_test 13 13).statistic = 1 / ((13 : ℚ) + (13 : ℚ)) ∧
        (mcnemar_test 13 13).statistic ≠ 0)) :=
  ⟨rfl, C3_mcnemar_equal_counts 13 13 rfl⟩

/-- C9 counterexample: with the single test ("t1", 0.05), m = 1 gives
corrected_p = 0.05 and `significant = true` (statsmodels rejects at p ≤ alpha/m),
while "corrected p-value below 0.05" is false — the claimed equivalence fails at the
boundary. -/
theorem C9_counterexample :
    (multiple_comparison_correction [("t1", 1/20)]).map
        (fun e => (e.2.significant, decide (e.2.corrected_p < 1/20))) =
      [(true, false)] := by
  norm_num [multiple_comparison_correction, multipletests_bonferroni]

/-- The Bonferroni correction output, characterized entry-by-entry. -/
theorem multiple_comparison_correction_eq (pvalues : List (String × ℚ)) :
    multiple_comparison_correction pvalues =
      pvalues.map (fun nv =>
        (nv.1, (⟨nv.2, min (nv.2 * (pvalues.length : ℚ)) 1,
          decide (nv.2 ≤ (1/20) / (pvalues.length : ℚ))⟩ : CorrectionEntry))) := by
  simp only [multiple_comparison_correction, multipletests_bonferroni]
  rw [List.map_map, List.length_map]
  have hzip := List.zip_map' (id : (String × ℚ) → (String × ℚ))
    ((fun p => (decide (p ≤ (1/20) / (pvalues.length : ℚ)),
      min (p * (pvalues.length : ℚ)) 1)) ∘ Prod.snd) pvalues
  simp only [List.map_id, id_eq] at hzip
  rw [hzip, List.map_map]
  rfl

/-- C9 (amended): for p-values in [0, 1], Bonferroni correction returns
corrected = min(1, p·m) ≥ p for every test, and the significant flag is true exactly
when the corrected p-value is at most 0.05 — statsmodels rejects at p ≤ alpha/m, so
equality at the boundary counts as significant, not "strictly below". -/
theorem C9_bonferroni_correction (pvalues : List (String × ℚ))
    (h : ∀ p ∈ pvalues, 0 ≤ p.2 ∧ p.2 ≤ 1) :
    ∀ entry ∈ multiple_comparison_correction pvalues,
      entry.2.corrected_p = min (entry.2.original_p * (pvalues.length : ℚ)) 1 ∧
      entry.2.original_p ≤ entry.2.corrected_p ∧
      (entry.2.significant = true ↔ entry.2.corrected_p ≤ 1/20) := by
  intro entry hentry
  rw [multiple_comparison_correction_eq, List.mem_map] at hentry
  obtain ⟨nv, hnv, rfl⟩ := hentry
  obtain ⟨hp0, hp1⟩ := h nv hnv
  have hm1 : (1 : ℚ) ≤ (pvalues.length : ℚ) := by
    have := List.length_pos.mpr (List.ne_nil_of_mem hnv)
    exact_mod_cast this
  have hm0 : (0 : ℚ) < (pvalues.length : ℚ) := lt_of_lt_of_le one_pos hm1
  refine ⟨rfl, ?_, ?_⟩
  · exact le_min (le_mul_of_one_le_right hp0 hm1) hp1
  · show (decide (nv.2 ≤ (1/20) / (pvalues.length : ℚ)) = true) ↔
      min (nv.2 * (pvalues.length : ℚ)) 1 ≤ 1/20
    rw [decide_eq_true_iff, le_div_iff₀ hm0]
    constructor
    · intro hle
      exact min_le_iff.mpr (Or.inl hle)
    · intro hle
      rcases min_le_iff.mp hle with hle | hle
      · exact hle
      · norm_num at hle

/-- Witness for C9 (amended) at the single test ("t1", 0.1). -/
theorem C9_bonferroni_correction_witness :
    (∀ p ∈ [("t1", (1 : ℚ)/10)], 0 ≤ p.2 ∧ p.2 ≤ 1) ∧
    ∀ entry ∈ multiple_comparison_correction [("t1", (1 : ℚ)/10)],
      entry.2.corrected_p =
        min (entry.2.original_p * (([("t1", (1 : ℚ)/10)] : List (String × ℚ)).length : ℚ)) 1 ∧
      entry.2.original_p ≤ entry.2.corrected_p ∧
      (entry.2.significant = true ↔ entry.2.corrected_p ≤ 1/20) :=
  ⟨by norm_num, C9_bonferroni_correction [("t1", (1 : ℚ)/10)] (by norm_num)⟩

/-- C4 counterexample: adding an orphaned evaluation result leaves the aggregation
output completely unchanged, so the output carries no count of orphaned records —
falsifying "the aggregation output surfaces a count of such orphaned records". -/
theorem C4_counterexample :
    calculate_model_performance c1Comps (c4Results ++ [c4Orphan]) =
      calculate_model_performance c1Comps c4Results := by
  unfold calculate_model_performance
  exact congrArg perfRowsOfTable (by decide)

/-- An unresolvable result is skipped by `processResult`. -/
theorem processResult_orphan (comps : List Comparison) (t : ScoreTable)
    (r : EvalResult) (h : lookupComparison comps r.comparison_id = none) :
    processResult comps t r = t := by
  unfold processResult
  rw [h]

/-- Folding skips exactly the elements the predicate rejects when those elements are
no-ops. -/
theorem foldl_filter_noop {α β : Type _} (f : β → α → β) (p : α → Bool)
    (hskip : ∀ b a, p a = false → f b a = b) :
    ∀ (l : List α) (init : β), l.foldl f init = (l.filter p).foldl f init
  | [], _ => rfl
  | a :: t, init => by
      cases hpa : p a with
      | true =>
          rw [List.foldl_cons, List.filter_cons_of_pos hpa, List.foldl_cons]
          exact foldl_filter_noop f p hskip t (f init a)
      | false =>
          rw [List.foldl_cons, List.filter_cons_of_neg (by simp [hpa]),
            hskip init a hpa]
          exact foldl_filter_noop f p hskip t init

/-- C4 (amended): evaluation results whose `comparison_id` resolves to no stored
comparison are excluded from aggregation, but silently — the output is identical to
the output on the orphan-free restriction of the input, so no count of orphaned
records is surfaced. -/
theorem C4_orphans_excluded_silently (comps : List Comparison)
    (results : List EvalResult) :
    calculate_model_performance comps results =
      calculate_model_performance comps
        (results.filter (fun r => (lookupComparison comps r.comparison_id).isSome)) := by
  unfold calculate_model_performance modelScores
  refine congrArg perfRowsOfTable ?_
  refine foldl_filter_noop (processResult comps) _ ?_ results []
  intro t r hp
  refine processResult_orphan comps t r ?_
  simpa [Option.isSome_iff_exists] using hp

/-- C5 counterexample: the same arguments under two different states of the global
generator produce different outputs, so `bootstrap_confidence_interval` is not
"deterministic under a supplied seed" — no seed can be supplied and the result
depends on shared global PRNG state. -/
theorem C5_counterexample :
    bootstrap_confidence_interval [0, 1] [0] 1 (95/100) (fun _ => 0) ≠
      bootstrap_confidence_interval [0, 1] [0] 1 (95/100) (fun _ => 1) := by
  have h1 : (bootstrap_confidence_interval [0, 1] [0] 1 (95/100)
      (fun _ => 0)).ci_lower = 0 := by
    norm_num [bootstrap_confidence_interval, bootstrapDiffs, sampleAt, npPercentile,
      listMean, List.range_succ, List.insertionSort, List.orderedInsert, List.getD]
  have h2 : (bootstrap_confidence_interval [0, 1] [0] 1 (95/100)
      (fun _ => 1)).ci_lower = 1 := by
    norm_num [bootstrap_confidence_interval, bootstrapDiffs, sampleAt, npPercentile,
      listMean, List.range_succ, List.insertionSort, List.orderedInsert, List.getD]
  intro h
  rw [h, h2] at h1
  norm_num at h1

/-- The bootstrap loop reads the stream only below n_bootstrap·(n_a+n_b). -/
theorem bootstrapDiffs_congr (scores_a scores_b : List ℚ) (n_bootstrap : ℕ)
    (s₁ s₂ : ℕ → ℕ)
    (hagree : ∀ t < n_bootstrap * (scores_a.length + scores_b.length), s₁ t = s₂ t) :
    bootstrapDiffs scores_a scores_b n_bootstrap s₁ =
      bootstrapDiffs scores_a scores_b n_bootstrap s₂ := by
  unfold bootstrapDiffs
  refine List.map_congr_left (fun i hi => ?_)
  rw [List.mem_range] at hi
  have hk : i * (scores_a.length + scores_b.length) +
      (scores_a.length + scores_b.length) ≤
      n_bootstrap * (scores_a.length + scores_b.length) := by
    rw [← Nat.succ_mul]
    exact Nat.mul_le_mul_right _ (Nat.succ_le_of_lt hi)
  have hsa : sampleAt scores_a s₁ (i * (scores_a.length + scores_b.length))
      scores_a.length =
      sampleAt scores_a s₂ (i * (scores_a.length + scores_b.length))
        scores_a.length := by
    unfold sampleAt
    refine List.map_congr_left (fun j hj => ?_)
    rw [List.mem_range] at hj
    rw [hagree _ ?_]
    exact Nat.lt_of_lt_of_le
      (Nat.add_lt_add_left
        (lt_of_lt_of_le hj (Nat.le_add_right _ _)) _) hk
  have hsb : sampleAt scores_b s₁
      (i * (scores_a.length + scores_b.length) + scores_a.length)
      scores_b.length =
      sampleAt scores_b s₂
        (i * (scores_a.length + scores_b.length) + scores_a.length)
        scores_b.length := by
    unfold sampleAt
    refine List.map_congr_left (fun j hj => ?_)
    rw [List.mem_range] at hj
    rw [hagree _ ?_]
    rw [Nat.add_assoc]
    exact Nat.lt_of_lt_of_le
      (Nat.add_lt_add_left (Nat.add_lt_add_left hj _) _) hk
  rw [hsa, hsb]

/-- C5 (amended): `bootstrap_confidence_interval` accepts no seed and consumes the
shared global numpy generator; it is deterministic only as a function of its
arguments together with the ambient draw stream, of which it reads exactly the first
n_bootstrap·(n_a+n_b) positions — two global streams that agree on that window yield
identical outputs. -/
theorem C5_bootstrap_stream_determinism (scores_a scores_b : List ℚ)
    (n_bootstrap : ℕ) (confidence_level : ℚ) (s₁ s₂ : ℕ → ℕ)
    (hagree : ∀ t < n_bootstrap * (scores_a.length + scores_b.length), s₁ t = s₂ t) :
    bootstrap_confidence_interval scores_a scores_b n_bootstrap confidence_level s₁ =
      bootstrap_confidence_interval scores_a scores_b n_bootstrap
        confidence_level s₂ := by
  unfold bootstrap_confidence_interval
  rw [bootstrapDiffs_congr scores_a scores_b n_bootstrap s₁ s₂ hagree]

/-- Witness for C5 (amended): two concrete streams agreeing below 1·(2+1) = 3. -/
theorem C5_bootstrap_stream_determinism_witness :
    (∀ t < 1 * (([(1 : ℚ), 2] : List ℚ).length + ([(3 : ℚ)] : List ℚ).length),
        (fun _ : ℕ => 0) t = (fun t : ℕ => if t < 3 then 0 else 7) t) ∧
    bootstrap_confidence_interval [1, 2] [3] 1 (95/100) (fun _ => 0) =
      bootstrap_confidence_interval [1, 2] [3] 1 (95/100)
        (fun t => if t < 3 then 0 else 7) :=
  ⟨by decide, C5_bootstrap_stream_determinism [1, 2] [3] 1 (95/100) _ _ (by decide)⟩

/-- C6 counterexample: a self-comparison request (identical model names) is NOT
rejected — `create_comparison` succeeds and persists a comparison whose two labels
name the same model, falsifying "rejects the request with an InvalidComparisonError
and persists nothing". -/
theorem C6_counterexample :
    create_comparison "m" "m" true true = .ok ⟨"m", "m", "m", "m"⟩ := rfl

/-- C6 (amended): `create_comparison` never fails: for every request — including
identical model names — it returns (and persists) a comparison carrying the given
names whose randomized labels are the two given models, swapped exactly when
randomization is on and the coin flip fires. -/
theorem C6_create_comparison_total (model_a model_b : String)
    (randomize_order coin : Bool) :
    ∃ cmp, create_comparison model_a model_b randomize_order coin = .ok cmp ∧
      cmp.model_a_name = model_a ∧ cmp.model_b_name = model_b ∧
      ({cmp.label_A, cmp.label_B} : Multiset String) = {model_a, model_b} := by
  unfold create_comparison
  cases h : randomize_order && coin with
  | true =>
      exact ⟨⟨model_a, model_b, model_b, model_a⟩, rfl, rfl, rfl,
        Multiset.pair_comm model_b model_a⟩
  | false =>
      exact ⟨⟨model_a, model_b, model_a, model_b⟩, rfl, rfl, rfl, rfl⟩

/-- C7 (code bug): when the logistic fit fails on an input where some model has
empirical win rate exactly 1 — precisely the zero-variance degenerate case the
fallback exists for — the fallback evaluates `rate / (1 - rate)` on plain floats and
raises `ZeroDivisionError`, which propagates to the caller instead of the promised
empirical-win-rate record with standard error ∞. -/
theorem C7_fallback_zero_division :
    bradley_terry_model c7Rows (Except.error "PerfectSeparationError") =
      Except.error "ZeroDivisionError" := by
  have hw : btWins c7Rows "A" = 1 := by decide
  have ht : btTotal c7Rows "A" = 1 := by decide
  have hr : btWinRate c7Rows "A" = 1 := by
    unfold btWinRate
    rw [hw, ht]
    norm_num
  unfold bradley_terry_model
  rw [if_neg (by decide)]
  show btFallback c7Rows = _
  unfold btFallback
  rw [show sortedModels c7Rows = ["A", "B"] from by decide]
  rw [btFallbackGo, if_pos hr]

end OwlEval
